import Mathlib

/-!
# Subscriptions API — shallow embedding

A shallow embedding of the subscriptions service: the relational storage
engine (`internal/database/database.go`), the redis cache layer
(`internal/cache`), the domain service (`internal/service`) and the
HTTP summary handler (`internal/handlers`), translated from the Go
source.

Modelling conventions:
* All dates in the system are month-granularity timestamps (parsed with
  layout `01-2006`, i.e. always the first instant of a month), so a date
  is a `YM` (year, month) pair and timestamp comparison is lexicographic
  comparison of the pair.  The SQL expression
  `(EXTRACT(YEAR FROM b) - EXTRACT(YEAR FROM a)) * 12 +
   EXTRACT(MONTH FROM b) - EXTRACT(MONTH FROM a) + 1`
  is `monthSpan a b` below.
* `uuid.UUID` is modelled as a `Nat` with `0` standing for `uuid.Nil`
  (the all-zero UUID); `sql.NullTime` wrappers (`CustomDate`,
  `CustomTime`) carry an explicit validity flag.
* The SQL table is a `List Subscription` plus the serial counter; a
  query without `ORDER BY` returns rows in list order, so `QueryRow`
  over such a query is `List.find?` of the `WHERE` predicate.
* Go's `(value, error)` returns are pairs with an `Option Err` error
  slot where the value matters on the error path (as `Database.Create`'s
  does), and `Except Err` where it does not.
* Redis keys `"sub:%d"` and `"sub:%s:%s"` (canonical 36-character UUID
  text in the middle) are injective with disjoint ranges, so they are
  modelled by the two constructors of `CacheKey`.
-/

/-- A month-granularity date: the timestamp `time.Parse("01-2006", s)`
produces, identified by its year and month. -/
structure YM where
  year : Int
  month : Int
deriving DecidableEq, Repr

/-- Timestamp order on month-granularity dates (`a` is at or before `b`):
lexicographic on (year, month). -/
def ymLe (a b : YM) : Bool :=
  a.year < b.year || (a.year == b.year && a.month ≤ b.month)

/-- Strict timestamp order, Go's `a.Before(b)` / SQL `a < b`. -/
def ymLt (a b : YM) : Bool :=
  a.year < b.year || (a.year == b.year && a.month < b.month)

/-- SQL `LEAST` on month-granularity timestamps. -/
def ymMin (a b : YM) : YM := if ymLe a b then a else b

/-- SQL `GREATEST` on month-granularity timestamps. -/
def ymMax (a b : YM) : YM := if ymLe a b then b else a

/-- The inclusive month count the summary query computes between two
month-granularity dates:
`(EXTRACT(YEAR FROM b) - EXTRACT(YEAR FROM a)) * 12
 + EXTRACT(MONTH FROM b) - EXTRACT(MONTH FROM a) + 1`. -/
def monthSpan (a b : YM) : Int :=
  (b.year - a.year) * 12 + (b.month - a.month) + 1

/-- `models.CustomDate`: an `sql.NullTime` holding a month-granularity
date; `valid = false` is SQL `NULL` / JSON `null`. -/
structure CustomDate where
  valid : Bool
  time : YM
deriving DecidableEq, Repr

/-- `models.CustomTime`: an `sql.NullTime` holding a full timestamp
(created_at / updated_at); the instant is abstracted to an `Int`. -/
structure CustomTime where
  valid : Bool
  time : Int
deriving DecidableEq, Repr

/-- `models.Subscription`. `userUUID = 0` models `uuid.Nil`. -/
structure Subscription where
  id : Int
  serviceName : String
  price : Int
  userUUID : Nat
  startDate : CustomDate
  endDate : CustomDate
  createdAt : CustomTime
  updatedAt : CustomTime
deriving DecidableEq, Repr

/-- `models.SubscriptionIdentifier`: a lookup key. -/
structure SubscriptionIdentifier where
  id : Int
  serviceName : String
  userUUID : Nat
deriving DecidableEq, Repr

/-- `models.SubscriptionPatch`: `id` plus one optional (pointer) field
per mutable column; `none` is an absent field. -/
structure SubscriptionPatch where
  id : Int
  serviceName : Option String
  price : Option Int
  userUUID : Option Nat
  startDate : Option CustomDate
  endDate : Option CustomDate
deriving DecidableEq, Repr

/-- `models.IDResponse`. -/
structure IDResponse where
  id : Int
deriving DecidableEq, Repr

/-- `models.SubscriptionsWithinPeriod`: the List/Summary filter. -/
structure SubscriptionsWithinPeriod where
  serviceName : String
  userUUID : Nat
  startDate : CustomDate
  endDate : CustomDate
  limit : Int
  offset : Int
deriving DecidableEq, Repr

/-- `models.SummaryResponse`. -/
structure SummaryResponse where
  amount : Int
  months : Int
  total : Int
deriving DecidableEq, Repr

/-- The error taxonomy of `models`: `ErrConflict`, `ErrNotFound`,
`ErrInternalServer`, `ErrBadRequest` (wrapped details dropped). -/
inductive Err where
  | conflict
  | notFound
  | internalServer
  | badRequest
deriving DecidableEq, Repr

namespace Database

/-- The state behind the `Database` handle: the `subscriptions` table in
row order plus the serial `id` counter. -/
structure DBState where
  rows : List Subscription
  nextId : Int
deriving DecidableEq, Repr

/-- The `WHERE` clause shared by `Database.Read`'s query:
`($1 <= 0 OR id = $1) AND ($2 = nil-uuid OR user_uuid = $2)
 AND ($3 = '' OR service_name = $3)` — each component of the identifier
is a wildcard when unset and a conjunctive filter when set. -/
def matchIdent (ident : SubscriptionIdentifier) (s : Subscription) : Bool :=
  (ident.id ≤ 0 || s.id == ident.id) &&
  (ident.userUUID == 0 || s.userUUID == ident.userUUID) &&
  (ident.serviceName == "" || s.serviceName == ident.serviceName)

/-- `Database.Read`: `QueryRowContext` over the conjunctive query — the
first row of the table satisfying `matchIdent`, `ErrNotFound` when
`sql.ErrNoRows`. -/
def Read (rows : List Subscription) (ident : SubscriptionIdentifier) :
    Except Err Subscription :=
  match rows.find? (matchIdent ident) with
  | some s => .ok s
  | none => .error .notFound

/-- `Database.Create`: probe by the natural key (an identifier with
`ID` left at its zero value); on a hit return the existing row's id with
`ErrConflict` and leave the table unchanged; otherwise insert the
subscription with the assigned serial id and `created_at = updated_at =
now`.  `now` is the in-Go `time.Now()` instant. -/
def Create (st : DBState) (now : Int) (sub : Subscription) :
    (IDResponse × Option Err) × DBState :=
  match Read st.rows ⟨0, sub.serviceName, sub.userUUID⟩ with
  | .ok existing => ((⟨existing.id⟩, some .conflict), st)
  | .error .notFound =>
      let stored : Subscription :=
        { sub with
          id := st.nextId
          createdAt := ⟨true, now⟩
          updatedAt := ⟨true, now⟩ }
      ((⟨st.nextId⟩, none), ⟨st.rows ++ [stored], st.nextId + 1⟩)
  | .error e => ((⟨0⟩, some e), st)

/-- `Database.Update`: probe by the natural key; a hit owned by a
different id is `ErrConflict`; otherwise run
`UPDATE ... SET <mutable fields>, updated_at = now WHERE id = $1`
(affecting zero rows is not an error). -/
def Update (st : DBState) (now : Int) (sub : Subscription) :
    Option Err × DBState :=
  match Read st.rows ⟨0, sub.serviceName, sub.userUUID⟩ with
  | .ok existing =>
      if sub.id ≠ existing.id then (some .conflict, st)
      else
        (none, ⟨st.rows.map (fun r =>
          if r.id == sub.id then
            { r with
              serviceName := sub.serviceName
              price := sub.price
              userUUID := sub.userUUID
              startDate := sub.startDate
              endDate := sub.endDate
              updatedAt := ⟨true, now⟩ }
          else r), st.nextId⟩)
  | .error .notFound =>
      (none, ⟨st.rows.map (fun r =>
        if r.id == sub.id then
          { r with
            serviceName := sub.serviceName
            price := sub.price
            userUUID := sub.userUUID
            startDate := sub.startDate
            endDate := sub.endDate
            updatedAt := ⟨true, now⟩ }
        else r), st.nextId⟩)
  | .error e => (some e, st)

/-- `Database.Delete`: resolve the identifier exactly like `Read`
(`ErrNotFound` propagates), then `DELETE ... WHERE id = <found id>`. -/
def Delete (st : DBState) (ident : SubscriptionIdentifier) :
    Option Err × DBState :=
  match Read st.rows ident with
  | .error e => (some e, st)
  | .ok sub => (none, ⟨st.rows.filter (fun r => r.id ≠ sub.id), st.nextId⟩)

/-- The `WHERE` clause of `Database.Summary` for a non-NULL window
`[s, e]`: filter wildcards for uuid / service name, plus
`start_date <= $4 AND (end_date IS NULL OR end_date >= $3)`. -/
def summaryMatch (p : SubscriptionsWithinPeriod) (s e : YM)
    (sub : Subscription) : Bool :=
  (p.userUUID == 0 || sub.userUUID == p.userUUID) &&
  (p.serviceName == "" || sub.serviceName == p.serviceName) &&
  ymLe sub.startDate.time e &&
  (!sub.endDate.valid || ymLe s sub.endDate.time)

/-- One matching row's term of the summary `SUM`:
`price * monthSpan(GREATEST(start_date, $3),
                   LEAST(COALESCE(end_date, $4), $4))`. -/
def summaryTerm (s e : YM) (sub : Subscription) : Int :=
  monthSpan (ymMax sub.startDate.time s)
    (ymMin (if sub.endDate.valid then sub.endDate.time else e) e) * sub.price

/-- `Database.Summary`.  When either bound is SQL `NULL` the `months`
expression (`EXTRACT` from `NULL`) is `NULL` and `Scan` into an `int`
fails, and likewise `SUM` over zero matching rows is `NULL`; both paths
surface as `ErrInternalServer`.  Otherwise the scanned row is
`(COUNT(*), months-between-bounds, SUM(per-row term))`. -/
def Summary (rows : List Subscription) (p : SubscriptionsWithinPeriod) :
    Except Err SummaryResponse :=
  if p.startDate.valid && p.endDate.valid then
    if (rows.filter (summaryMatch p p.startDate.time p.endDate.time)).isEmpty then
      .error .internalServer
    else
      .ok ⟨(rows.filter (summaryMatch p p.startDate.time p.endDate.time)).length,
        monthSpan p.startDate.time p.endDate.time,
        ((rows.filter (summaryMatch p p.startDate.time p.endDate.time)).map
          (summaryTerm p.startDate.time p.endDate.time)).sum⟩
  else
    .error .internalServer

end Database

namespace Cache

/-- A redis key of the cache layer.  `Cache.subID` renders
`"sub:%d"` and `Cache.subUserAndService` renders `"sub:%s:%s"` with the
canonical 36-character UUID text in the middle; the two formats are
injective and their ranges are disjoint, so keys are modelled by this
inductive type. -/
inductive CacheKey where
  | subID (id : Int)
  | subUserAndService (userUUID : Nat) (serviceName : String)
deriving DecidableEq, Repr

/-- A cached value with its absolute expiry instant (redis `SET ... EX`:
the write instant plus the configured TTL). -/
structure CacheEntry where
  sub : Subscription
  expiresAt : Int
deriving DecidableEq, Repr

/-- The state behind the `Cache` handle: the configured TTL and the live
key space. -/
structure CacheState where
  ttl : Int
  entries : List (CacheKey × CacheEntry)
deriving DecidableEq, Repr

/-- Redis `SET key value`: overwrite any previous value under the key. -/
def setKey (entries : List (CacheKey × CacheEntry)) (k : CacheKey)
    (e : CacheEntry) : List (CacheKey × CacheEntry) :=
  (entries.filter (fun kv => kv.1 ≠ k)) ++ [(k, e)]

/-- Redis `GET key` at instant `now`: the stored value while it has not
expired, otherwise `redis.Nil` (a miss). -/
def getKey (entries : List (CacheKey × CacheEntry)) (now : Int)
    (k : CacheKey) : Option Subscription :=
  match entries.find? (fun kv => kv.1 == k) with
  | some kv => if now < kv.2.expiresAt then some kv.2.sub else none
  | none => none

/-- Redis `DEL key`. -/
def delKey (entries : List (CacheKey × CacheEntry)) (k : CacheKey) :
    List (CacheKey × CacheEntry) :=
  entries.filter (fun kv => kv.1 ≠ k)

/-- `Cache.SetSubscription`: marshal the subscription and
`SET` it under the id key `subID(subscription.ID)` with the configured
TTL. -/
def SetSubscription (c : CacheState) (now : Int) (sub : Subscription) :
    CacheState :=
  ⟨c.ttl, setKey c.entries (.subID sub.id) ⟨sub, now + c.ttl⟩⟩

/-- `Cache.GetSubscription`: `GET` the id key when `identifier.ID > 0`,
else the natural-key key; `redis.Nil` is a plain miss (`none`). -/
def GetSubscription (c : CacheState) (now : Int)
    (ident : SubscriptionIdentifier) : Option Subscription :=
  if ident.id > 0 then getKey c.entries now (.subID ident.id)
  else getKey c.entries now (.subUserAndService ident.userUUID ident.serviceName)

/-- `Cache.DeleteSubscription`: `DEL` the id key, then `DEL` the
natural-key key built from the identifier. -/
def DeleteSubscription (c : CacheState) (ident : SubscriptionIdentifier) :
    CacheState :=
  ⟨c.ttl, delKey (delKey c.entries (.subID ident.id))
    (.subUserAndService ident.userUUID ident.serviceName)⟩

end Cache

namespace Service

/-- The state behind a `Service`: the database handle's table and the
cache handle's key space (`s.Cache != nil` throughout: a constructed
service holds a live cache client). -/
structure AppState where
  db : Database.DBState
  cache : Cache.CacheState
deriving DecidableEq, Repr

/-- `Service.ValidateSubscription`: nil user uuid, empty service name,
non-positive price, an unset start date or an end date strictly before
the start date are each `ErrBadRequest`. -/
def ValidateSubscription (sub : Subscription) : Option Err :=
  if sub.userUUID == 0 then some .badRequest
  else if sub.serviceName.length == 0 then some .badRequest
  else if sub.price ≤ 0 then some .badRequest
  else if !sub.startDate.valid ||
      (sub.endDate.valid && ymLt sub.endDate.time sub.startDate.time) then
    some .badRequest
  else none

/-- `Service.Create`: validate, call `Database.Create`, then — on every
outcome of the store call — overwrite the payload's id with the returned
id and cache the payload. -/
def Create (st : AppState) (now : Int) (sub : Subscription) :
    (IDResponse × Option Err) × AppState :=
  match ValidateSubscription sub with
  | some e => ((⟨0⟩, some e), st)
  | none =>
      let ((res, err), db) := Database.Create st.db now sub
      let cache := Cache.SetSubscription st.cache now { sub with id := res.id }
      ((res, err), ⟨db, cache⟩)

/-- `Service.Read`: reject (`ErrBadRequest`) when `identifier.ID == 0`
and the natural key is incomplete; otherwise try the cache and fall back
to `Database.Read` on a miss. -/
def Read (st : AppState) (now : Int) (ident : SubscriptionIdentifier) :
    Except Err Subscription :=
  if ident.id == 0 && (ident.userUUID == 0 || ident.serviceName.length == 0) then
    .error .badRequest
  else
    match Cache.GetSubscription st.cache now ident with
    | some sub => .ok sub
    | none => Database.Read st.db.rows ident

/-- `Service.Update`: validate, call `Database.Update`, then delete the
cache entries for the identifier holding only the target id. -/
def Update (st : AppState) (now : Int) (sub : Subscription) :
    Option Err × AppState :=
  match ValidateSubscription sub with
  | some e => (some e, st)
  | none =>
      let (err, db) := Database.Update st.db now sub
      let cache := Cache.DeleteSubscription st.cache ⟨sub.id, "", 0⟩
      (err, ⟨db, cache⟩)

/-- `Service.Patch`: read the existing row by id alone; substitute the
existing value for every absent patch field; validate the merged record;
persist it via `Database.Update`; delete the cache entries for the id. -/
def Patch (st : AppState) (now : Int) (patch : SubscriptionPatch) :
    Option Err × AppState :=
  match Database.Read st.db.rows ⟨patch.id, "", 0⟩ with
  | .error e => (some e, st)
  | .ok exist =>
      let merged : Subscription :=
        { id := patch.id
          serviceName := patch.serviceName.getD exist.serviceName
          price := patch.price.getD exist.price
          userUUID := patch.userUUID.getD exist.userUUID
          startDate := patch.startDate.getD exist.startDate
          endDate := patch.endDate.getD exist.endDate
          createdAt := ⟨false, 0⟩
          updatedAt := ⟨false, 0⟩ }
      match ValidateSubscription merged with
      | some e => (some e, st)
      | none =>
          let (err, db) := Database.Update st.db now merged
          let cache := Cache.DeleteSubscription st.cache ⟨merged.id, "", 0⟩
          (err, ⟨db, cache⟩)

/-- `Service.Delete`: reject (`ErrBadRequest`) when `identifier.ID == 0`
and the natural key is incomplete; otherwise call `Database.Delete` and
delete the cache entries for the identifier. -/
def Delete (st : AppState) (ident : SubscriptionIdentifier) :
    Option Err × AppState :=
  if ident.id == 0 && (ident.userUUID == 0 || ident.serviceName.length == 0) then
    (some .badRequest, st)
  else
    let (err, db) := Database.Delete st.db ident
    (err, ⟨db, Cache.DeleteSubscription st.cache ident⟩)

/-- `Service.Summary`: reject (`ErrBadRequest`) only when both bounds
are set and the end is strictly before the start; otherwise delegate to
`Database.Summary`. -/
def Summary (st : AppState) (p : SubscriptionsWithinPeriod) :
    Except Err SummaryResponse :=
  if p.endDate.valid && p.startDate.valid &&
      ymLt p.endDate.time p.startDate.time then
    .error .badRequest
  else
    Database.Summary st.db.rows p

end Service

namespace Handler

/-- `Handler.Summary`'s query parsing collapsed to its outcome: an
absent `start_date` or `end_date` query parameter becomes an invalid
(`NULL`) `CustomDate` — the handler performs no presence check despite
the route documenting both as required — and the filter is passed to
`Service.Summary` with zero `limit`/`offset`. -/
def Summary (st : Service.AppState) (userUUID : Nat) (serviceName : String)
    (start? end? : Option YM) : Except Err SummaryResponse :=
  let startDate : CustomDate :=
    match start? with
    | some d => ⟨true, d⟩
    | none => ⟨false, ⟨0, 0⟩⟩
  let endDate : CustomDate :=
    match end? with
    | some d => ⟨true, d⟩
    | none => ⟨false, ⟨0, 0⟩⟩
  Service.Summary st ⟨serviceName, userUUID, startDate, endDate, 0, 0⟩

end Handler

/-!
## Helper lemmas and concrete fixtures
-/

/-- The first (and only) match of a predicate that singles out `a`. -/
theorem find_eq_some_of_unique {α : Type} (p : α → Bool) (l : List α) (a : α)
    (ha : a ∈ l) (hpa : p a = true) (huniq : ∀ b ∈ l, p b = true → b = a) :
    l.find? p = some a := by
  induction l with
  | nil => cases ha
  | cons x xs ih =>
      by_cases hx : p x = true
      · have : x = a := huniq x (List.mem_cons_self x xs) hx
        subst this
        simp [List.find?, hx]
      · have hxa : x ≠ a := fun h => hx (h ▸ hpa)
        have ha' : a ∈ xs := by
          rcases List.mem_cons.mp ha with h | h
          · exact absurd h.symm hxa
          · exact h
        have := ih ha' (fun b hb hpb => huniq b (List.mem_cons_of_mem x hb) hpb)
        simp [List.find?, Bool.of_not_eq_true hx, this]

/-- A validated subscription has a non-nil user uuid, a non-empty
service name, a positive price and a set start date. -/
theorem validate_ok_fields (sub : Subscription)
    (h : Service.ValidateSubscription sub = none) :
    sub.userUUID ≠ 0 ∧ sub.serviceName ≠ "" ∧ 0 < sub.price ∧
      sub.startDate.valid = true := by
  unfold Service.ValidateSubscription at h
  by_cases h1 : sub.userUUID = 0
  · simp [h1] at h
  by_cases h2 : sub.serviceName.length = 0
  · simp [h1, h2] at h
  by_cases h3 : sub.price ≤ 0
  · simp [h1, h2, h3] at h
  refine ⟨h1, fun he => h2 (by simp [he]), by omega, ?_⟩
  by_cases h4 : sub.startDate.valid
  · exact h4
  · simp [h1, h2, h3, h4] at h

/-- No key equal to `k` survives the filter `setKey` applies. -/
theorem find_filtered_key_none (entries : List (Cache.CacheKey × Cache.CacheEntry))
    (k : Cache.CacheKey) :
    (entries.filter (fun kv => kv.1 ≠ k)).find? (fun kv => kv.1 == k) = none := by
  rw [List.find?_eq_none]
  intro kv hkv hk
  have h1 : kv.1 ≠ k := by simpa using (List.mem_filter.mp hkv).2
  exact h1 (by simpa using hk)

/-- Filtering out key `k` does not change the first hit of a different
key `k'`. -/
theorem find_filtered_key_other (entries : List (Cache.CacheKey × Cache.CacheEntry))
    (k k' : Cache.CacheKey) (h : k' ≠ k) :
    (entries.filter (fun kv => kv.1 ≠ k)).find? (fun kv => kv.1 == k') =
      entries.find? (fun kv => kv.1 == k') := by
  induction entries with
  | nil => rfl
  | cons kv kvs ih =>
      by_cases hk : kv.1 = k
      · rw [List.filter_cons_of_neg (by simp [hk]), ih,
          List.find?_cons_of_neg _ (by simp [hk, Ne.symm h])]
      · rw [List.filter_cons_of_pos (by simp [hk])]
        by_cases hk' : kv.1 = k'
        · rw [List.find?_cons_of_pos _ (by simp [hk']),
            List.find?_cons_of_pos _ (by simp [hk'])]
        · rw [List.find?_cons_of_neg _ (by simp [hk']),
            List.find?_cons_of_neg _ (by simp [hk']), ih]

/-- Reading back the key just written: the stored value while the entry
has not expired. -/
theorem getKey_setKey_same (entries : List (Cache.CacheKey × Cache.CacheEntry))
    (k : Cache.CacheKey) (e : Cache.CacheEntry) (now : Int) :
    Cache.getKey (Cache.setKey entries k e) now k =
      if now < e.expiresAt then some e.sub else none := by
  unfold Cache.getKey Cache.setKey
  rw [List.find?_append, find_filtered_key_none]
  rw [List.find?_cons_of_pos _ (by simp)]
  rfl

/-- Reading any other key is unaffected by the write. -/
theorem getKey_setKey_other (entries : List (Cache.CacheKey × Cache.CacheEntry))
    (k k' : Cache.CacheKey) (e : Cache.CacheEntry) (now : Int) (h : k' ≠ k) :
    Cache.getKey (Cache.setKey entries k e) now k' =
      Cache.getKey entries now k' := by
  unfold Cache.getKey Cache.setKey
  rw [List.find?_append, find_filtered_key_other entries k k' h]
  have hlast : ([(k, e)].find? (fun kv => kv.1 == k')) = none := by
    rw [List.find?_cons_of_neg _ (by simp [Ne.symm h])]
    rfl
  rw [hlast]
  cases entries.find? (fun kv => kv.1 == k') <;> rfl

/-- A sample stored row: id 1, natural key (7, "Netflix"). -/
def rowA : Subscription :=
  ⟨1, "Netflix", 100, 7, ⟨true, ⟨2025, 6⟩⟩, ⟨true, ⟨2025, 9⟩⟩, ⟨true, 10⟩, ⟨true, 10⟩⟩

/-- A client payload whose natural key collides with `rowA`. -/
def subRejected : Subscription :=
  ⟨0, "Netflix", 999, 7, ⟨true, ⟨2025, 1⟩⟩, ⟨false, ⟨0, 0⟩⟩, ⟨false, 0⟩, ⟨false, 0⟩⟩

/-- A valid client payload on an empty store. -/
def subU : Subscription :=
  ⟨5, "Spotify", 300, 9, ⟨true, ⟨2025, 1⟩⟩, ⟨false, ⟨0, 0⟩⟩, ⟨false, 0⟩, ⟨false, 0⟩⟩

/-- Service state over an empty table and an empty cache (TTL 5). -/
def emptyApp : Service.AppState := ⟨⟨[], 1⟩, ⟨5, []⟩⟩

/-- Service state whose table holds exactly `rowA` (TTL 5). -/
def appA : Service.AppState := ⟨⟨[rowA], 2⟩, ⟨5, []⟩⟩

/-- An empty cache with TTL 5. -/
def cacheEmpty : Cache.CacheState := ⟨5, []⟩

/-!
## C1 — identifier resolution in the storage engine's Read
-/

/-- C1, counterexample.  The claim says an `id > 0` lookup matches by id
alone with supplied natural-key fields ignored, and that a lookup with
`id ≤ 0` fails NotFound-style when either natural-key component is
unset.  Against the stored table `[rowA]` (id 1, uuid 7, name
"Netflix"): the identifier `(id 1, uuid 2, name unset)` should then find
`rowA` but the query's conjunctive `user_uuid` filter makes it NotFound,
and the identifier `(id 0, uuid 7, name unset)` should then be NotFound
but the unset components act as wildcards and the query returns `rowA`. -/
theorem read_id_priority_counterexample :
    (Database.Read [rowA] ⟨1, "", 2⟩ = .error .notFound ∧
      Database.Read [rowA] ⟨1, "", 2⟩ ≠ .ok rowA) ∧
    (Database.Read [rowA] ⟨0, "", 7⟩ = .ok rowA ∧
      Database.Read [rowA] ⟨0, "", 7⟩ ≠ .error .notFound) := by
  refine ⟨⟨rfl, fun h => ?_⟩, ⟨rfl, fun h => ?_⟩⟩
  · exact Except.noConfusion (show Except.error Err.notFound =
      Except.ok rowA from h)
  · exact Except.noConfusion (show Except.ok rowA =
      Except.error Err.notFound from h)

/-- C1, amended.  `Database.Read` resolves an identifier conjunctively:
each supplied component (`id > 0`, non-nil uuid, non-empty service name)
filters the table and each unset component is a wildcard.  Hence an
id-only identifier matches by id alone, a natural-key-only identifier
matches by exactly the pair, and any row returned agrees with every
supplied component; but supplied natural-key fields are *not* ignored
alongside `id > 0`, and a lookup with an incomplete natural key and no
id does not fail — the unset parts are wildcards. -/
theorem read_conjunctive_resolution (rows : List Subscription)
    (ident : SubscriptionIdentifier) :
    (0 < ident.id → ident.userUUID = 0 → ident.serviceName = "" →
      Database.Read rows ident =
        match rows.find? (fun r => r.id == ident.id) with
        | some r => .ok r
        | none => .error .notFound) ∧
    (ident.id ≤ 0 → ident.userUUID ≠ 0 → ident.serviceName ≠ "" →
      Database.Read rows ident =
        match rows.find? (fun r =>
            r.userUUID == ident.userUUID && r.serviceName == ident.serviceName) with
        | some r => .ok r
        | none => .error .notFound) ∧
    (∀ r, Database.Read rows ident = .ok r →
      r ∈ rows ∧ (0 < ident.id → r.id = ident.id) ∧
      (ident.userUUID ≠ 0 → r.userUUID = ident.userUUID) ∧
      (ident.serviceName ≠ "" → r.serviceName = ident.serviceName)) := by
  refine ⟨?_, ?_, ?_⟩
  · intro h1 h2 h3
    have hm : Database.matchIdent ident = fun r => r.id == ident.id := by
      funext r
      simp [Database.matchIdent, h2, h3, show ¬ident.id ≤ 0 by omega]
    rw [Database.Read, hm]
  · intro h1 h2 h3
    have h2' : (ident.userUUID == 0) = false := by simpa using h2
    have h3' : (ident.serviceName == "") = false := by simpa using h3
    have hm : Database.matchIdent ident = fun r =>
        r.userUUID == ident.userUUID && r.serviceName == ident.serviceName := by
      funext r
      simp [Database.matchIdent, h1, h2', h3']
    rw [Database.Read, hm]
  · intro r hr
    rw [Database.Read] at hr
    rcases hfind : rows.find? (Database.matchIdent ident) with _ | s
    · rw [hfind] at hr; cases hr
    · rw [hfind] at hr
      cases hr
      have hmem := List.mem_of_find?_eq_some hfind
      have hp := List.find?_some hfind
      rw [Database.matchIdent] at hp
      simp only [Bool.and_eq_true, Bool.or_eq_true, beq_iff_eq, decide_eq_true_eq] at hp
      refine ⟨hmem, ?_, ?_, ?_⟩
      · intro hid
        rcases hp.1.1 with h | h
        · omega
        · exact h
      · intro hu
        rcases hp.1.2 with h | h
        · exact absurd h hu
        · exact h
      · intro hn
        rcases hp.2 with h | h
        · exact absurd h hn
        · exact h

/-- C1, witness: the amended theorem applied to the table `[rowA]` and
the id-only identifier `(id 1)`. -/
theorem read_conjunctive_resolution_witness :
    Database.Read [rowA] ⟨1, "", 0⟩ =
      match [rowA].find? (fun r => r.id == (1 : Int)) with
      | some r => .ok r
      | none => .error .notFound :=
  (read_conjunctive_resolution [rowA] ⟨1, "", 0⟩).1 (by decide) rfl rfl

/-!
## C2 — Update/Patch/Delete on a non-existent id
-/

/-- C2, counterexample.  A full `Service.Update` of a valid payload
whose id (5) is absent from the (empty) store returns no error — the
service reports success, where the claim demands NotFound. -/
theorem update_missing_id_counterexample :
    (Service.Update emptyApp 0 subU).1 = none ∧
    (Service.Update emptyApp 0 subU).2.db.rows = [] :=
  ⟨rfl, rfl⟩

/-- C2, amended.  Through the domain service, Patch and Delete on an id
matching no stored row return NotFound; but full Update performs no
existence check: on an absent id whose natural key collides with no row
it reports success and leaves every row unchanged (a silent no-op). -/
theorem service_missing_id_behavior (st : Service.AppState) (now : Int)
    (patch : SubscriptionPatch) (ident : SubscriptionIdentifier)
    (sub : Subscription) :
    (0 < patch.id → (∀ r ∈ st.db.rows, r.id ≠ patch.id) →
      (Service.Patch st now patch).1 = some .notFound) ∧
    (0 < ident.id → (∀ r ∈ st.db.rows, r.id ≠ ident.id) →
      (Service.Delete st ident).1 = some .notFound ∧
      (Service.Delete st ident).2.db = st.db) ∧
    (Service.ValidateSubscription sub = none →
      (∀ r ∈ st.db.rows, r.id ≠ sub.id) →
      (∀ r ∈ st.db.rows,
        ¬(r.userUUID = sub.userUUID ∧ r.serviceName = sub.serviceName)) →
      (Service.Update st now sub).1 = none ∧
      (Service.Update st now sub).2.db.rows = st.db.rows) := by
  refine ⟨?_, ?_, ?_⟩
  · intro hpos hids
    have hnone : st.db.rows.find? (Database.matchIdent ⟨patch.id, "", 0⟩) = none := by
      rw [List.find?_eq_none]
      intro r hr
      simp [Database.matchIdent, hids r hr, show ¬patch.id ≤ 0 by omega]
    simp [Service.Patch, Database.Read, hnone]
  · intro hpos hids
    have hnone : st.db.rows.find? (Database.matchIdent ident) = none := by
      rw [List.find?_eq_none]
      intro r hr
      simp [Database.matchIdent, hids r hr, show ¬ident.id ≤ 0 by omega]
    have hguard : (ident.id == 0) = false := by
      simpa using show ident.id ≠ 0 by omega
    constructor <;>
      simp [Service.Delete, Database.Delete, Database.Read, hnone, hguard]
  · intro hv hids hnk
    obtain ⟨hu, hn, -, -⟩ := validate_ok_fields sub hv
    have hu' : (sub.userUUID == 0) = false := by simpa using hu
    have hn' : (sub.serviceName == "") = false := by simpa using hn
    have hnone : st.db.rows.find?
        (Database.matchIdent ⟨0, sub.serviceName, sub.userUUID⟩) = none := by
      rw [List.find?_eq_none]
      intro r hr
      simp [Database.matchIdent, hu', hn']
      exact fun h1 h2 => hnk r hr ⟨h1, h2⟩
    have hmap : st.db.rows.map (fun r =>
        if r.id = sub.id then
          { r with
            serviceName := sub.serviceName
            price := sub.price
            userUUID := sub.userUUID
            startDate := sub.startDate
            endDate := sub.endDate
            updatedAt := ⟨true, now⟩ }
        else r) = st.db.rows := by
      rw [show st.db.rows = st.db.rows.map id by rw [List.map_id]]
      rw [List.map_map]
      exact List.map_congr_left (fun r hr => by simp [hids r hr])
    constructor <;>
      simp [Service.Update, hv, Database.Update, Database.Read, hnone, hmap]

/-- C2, witness: the three parts applied to the one-row table `[rowA]`
(id 1) with the absent id 5. -/
theorem service_missing_id_behavior_witness :
    (Service.Patch appA 0 ⟨5, none, none, none, none, none⟩).1 = some .notFound ∧
    ((Service.Delete appA ⟨5, "", 0⟩).1 = some .notFound ∧
      (Service.Delete appA ⟨5, "", 0⟩).2.db = appA.db) ∧
    ((Service.Update appA 0 subU).1 = none ∧
      (Service.Update appA 0 subU).2.db.rows = appA.db.rows) :=
  ⟨(service_missing_id_behavior appA 0 ⟨5, none, none, none, none, none⟩
      ⟨5, "", 0⟩ subU).1 (by decide) (by decide),
   (service_missing_id_behavior appA 0 ⟨5, none, none, none, none, none⟩
      ⟨5, "", 0⟩ subU).2.1 (by decide) (by decide),
   (service_missing_id_behavior appA 0 ⟨5, none, none, none, none, none⟩
      ⟨5, "", 0⟩ subU).2.2 (by decide) (by decide) (by decide)⟩

/-!
## C3 — which keys SetSubscription writes
-/

/-- C3, counterexample.  After `SetSubscription` stores `rowA` (id 1,
uuid 7, name "Netflix") in an empty cache, a lookup by the natural-key
identifier misses while the lookup by id hits: the natural-key entry the
claim requires is never written. -/
theorem setsubscription_single_key_counterexample :
    Cache.GetSubscription (Cache.SetSubscription cacheEmpty 0 rowA) 1
      ⟨0, "Netflix", 7⟩ = none ∧
    Cache.GetSubscription (Cache.SetSubscription cacheEmpty 0 rowA) 1
      ⟨1, "", 0⟩ = some rowA :=
  ⟨rfl, rfl⟩

/-- C3, amended.  `SetSubscription` writes the entry under the
surrogate-id key only, with the fixed configured expiry (`now + ttl`):
a subsequent unexpired lookup by id hits, while every natural-key-form
lookup (`id ≤ 0`) is left exactly as it was before the write — the
natural-key entry is not written. -/
theorem setsubscription_id_key_only (c : Cache.CacheState) (now now2 : Int)
    (sub : Subscription) :
    (0 < sub.id → now2 < now + c.ttl →
      Cache.GetSubscription (Cache.SetSubscription c now sub) now2
        ⟨sub.id, "", 0⟩ = some sub) ∧
    (∀ ident : SubscriptionIdentifier, ident.id ≤ 0 →
      Cache.GetSubscription (Cache.SetSubscription c now sub) now2 ident =
        Cache.GetSubscription c now2 ident) := by
  constructor
  · intro hpos hfresh
    have hgt : ((⟨sub.id, "", 0⟩ : SubscriptionIdentifier).id > 0) := hpos
    rw [Cache.GetSubscription, if_pos hgt, Cache.SetSubscription]
    rw [getKey_setKey_same]
    simp [hfresh]
  · intro ident hle
    have hng : ¬(ident.id > 0) := by omega
    rw [Cache.GetSubscription, if_neg hng, Cache.GetSubscription, if_neg hng,
      Cache.SetSubscription]
    exact getKey_setKey_other c.entries _ _ _ now2 (by intro h; cases h)

/-- C3, witness: the amended theorem at the concrete write of `rowA`
into the empty cache, read back by id at an unexpired instant and by the
natural key. -/
theorem setsubscription_id_key_only_witness :
    Cache.GetSubscription (Cache.SetSubscription cacheEmpty 0 rowA) 1
      ⟨(1 : Int), "", 0⟩ = some rowA ∧
    Cache.GetSubscription (Cache.SetSubscription cacheEmpty 0 rowA) 1
      ⟨0, "Netflix", 7⟩ = Cache.GetSubscription cacheEmpty 1 ⟨0, "Netflix", 7⟩ :=
  ⟨(setsubscription_id_key_only cacheEmpty 0 1 rowA).1 (by decide) (by decide),
   (setsubscription_id_key_only cacheEmpty 0 1 rowA).2 ⟨0, "Netflix", 7⟩
     (by decide)⟩

/-!
## C4 — cache fill on a failed Create
-/

/-- C4.  `Service.Create` calls the cache fill on every outcome of the
store call, not only on success.  Against the table `[rowA]` (id 1, uuid
7, name "Netflix"), creating `subRejected` (same natural key, price 999)
returns the Conflict with the existing id 1 — and nevertheless writes
the rejected payload into the cache under id 1, so that an immediately
following `Service.Read` by id 1 is served the rejected payload, a
record that differs from the stored `rowA` and was never persisted. -/
theorem create_conflict_caches_rejected_payload :
    (Service.Create appA 10 subRejected).1 = (⟨1⟩, some .conflict) ∧
    Service.Read (Service.Create appA 10 subRejected).2 11 ⟨1, "", 0⟩ =
      .ok { subRejected with id := 1 } ∧
    ({ subRejected with id := 1 } : Subscription) ≠ rowA ∧
    (Service.Create appA 10 subRejected).2.db.rows = [rowA] := by
  refine ⟨rfl, rfl, ?_, rfl⟩
  intro h
  exact absurd (congrArg Subscription.price h) (by decide)

/-!
## C5 — Conflict on Create carries the existing row's id
-/

/-- C5.  When the store already holds a live row with the payload's
(user uuid, service name) pair — the pair being set, and owning it
uniquely — `Database.Create` returns that row's id together with the
Conflict error and leaves the table unchanged, so the caller can recover
the conflicting id from the error path. -/
theorem create_conflict_reports_existing_id (st : Database.DBState)
    (now : Int) (sub r : Subscription)
    (hu : sub.userUUID ≠ 0) (hn : sub.serviceName ≠ "")
    (hr : r ∈ st.rows) (hru : r.userUUID = sub.userUUID)
    (hrn : r.serviceName = sub.serviceName)
    (huniq : ∀ s ∈ st.rows, s.userUUID = sub.userUUID →
      s.serviceName = sub.serviceName → s = r) :
    Database.Create st now sub = ((⟨r.id⟩, some .conflict), st) := by
  have hu' : (sub.userUUID == 0) = false := by simpa using hu
  have hn' : (sub.serviceName == "") = false := by simpa using hn
  have hfind : st.rows.find?
      (Database.matchIdent ⟨0, sub.serviceName, sub.userUUID⟩) = some r := by
    apply find_eq_some_of_unique
    · exact hr
    · simp [Database.matchIdent, hru, hrn]
    · intro b hb hpb
      simp [Database.matchIdent, hu', hn'] at hpb
      exact huniq b hb hpb.1 hpb.2
  rw [Database.Create, Database.Read, hfind]

/-- C5, witness: creating `subRejected` against the table `[rowA]`,
whose row owns the pair (7, "Netflix"), reports Conflict with id 1. -/
theorem create_conflict_reports_existing_id_witness :
    Database.Create ⟨[rowA], 2⟩ 10 subRejected =
      ((⟨1⟩, some .conflict), ⟨[rowA], 2⟩) :=
  create_conflict_reports_existing_id ⟨[rowA], 2⟩ 10 subRejected rowA
    (by decide) (by decide) (by decide) (by decide) (by decide) (by decide)

/-!
## C6 — the summary formulas
-/

/-- The row of the spec's worked example: 06-2025..09-2025 at price
400. -/
def rowSummary : Subscription :=
  ⟨1, "Yandex Plus", 400, 7, ⟨true, ⟨2025, 6⟩⟩, ⟨true, ⟨2025, 9⟩⟩,
    ⟨true, 0⟩, ⟨true, 0⟩⟩

/-- The spec's worked-example window: 07-2025..08-2025, no uuid or
service-name filter. -/
def pJulAug : SubscriptionsWithinPeriod :=
  ⟨"", 0, ⟨true, ⟨2025, 7⟩⟩, ⟨true, ⟨2025, 8⟩⟩, 10, 0⟩

/-- C6.  Every successful Summary result satisfies the spec's three
formulas: `months` is the inclusive month count between the (set) filter
bounds; `amount` counts the rows matching the filter and overlapping the
window; `total` sums, over those rows, price times the inclusive month
count from `max(row.start_date, filter.start)` to
`min(row.end_date or filter.end, filter.end)`. -/
theorem summary_formula (rows : List Subscription)
    (p : SubscriptionsWithinPeriod) (res : SummaryResponse)
    (h : Database.Summary rows p = .ok res) :
    p.startDate.valid = true ∧ p.endDate.valid = true ∧
    res.months = (p.endDate.time.year - p.startDate.time.year) * 12 +
      (p.endDate.time.month - p.startDate.time.month) + 1 ∧
    res.amount = ((rows.filter
      (Database.summaryMatch p p.startDate.time p.endDate.time)).length : Int) ∧
    res.total = ((rows.filter
        (Database.summaryMatch p p.startDate.time p.endDate.time)).map
      (fun sub => monthSpan (ymMax sub.startDate.time p.startDate.time)
        (ymMin (if sub.endDate.valid then sub.endDate.time else p.endDate.time)
          p.endDate.time) * sub.price)).sum := by
  rw [Database.Summary] at h
  split at h
  case isFalse hb => cases h
  case isTrue hb =>
    split at h
    case isTrue => cases h
    case isFalse =>
      have hb' := hb
      simp only [Bool.and_eq_true] at hb'
      injection h with h
      subst h
      exact ⟨hb'.1, hb'.2, rfl, rfl, rfl⟩

/-- C6, witness: the spec's worked example.  The single row
06-2025..09-2025 at price 400, summarised over 07-2025..08-2025, yields
amount 1, months 2 and total `400 * 2 = 800`, and the theorem's formulas
evaluate accordingly. -/
theorem summary_formula_witness :
    pJulAug.startDate.valid = true ∧ pJulAug.endDate.valid = true ∧
    ((⟨1, 2, 800⟩ : SummaryResponse)).months =
      (pJulAug.endDate.time.year - pJulAug.startDate.time.year) * 12 +
        (pJulAug.endDate.time.month - pJulAug.startDate.time.month) + 1 ∧
    ((⟨1, 2, 800⟩ : SummaryResponse)).amount = (([rowSummary].filter
      (Database.summaryMatch pJulAug pJulAug.startDate.time
        pJulAug.endDate.time)).length : Int) ∧
    ((⟨1, 2, 800⟩ : SummaryResponse)).total = (([rowSummary].filter
        (Database.summaryMatch pJulAug pJulAug.startDate.time
          pJulAug.endDate.time)).map
      (fun sub => monthSpan (ymMax sub.startDate.time pJulAug.startDate.time)
        (ymMin (if sub.endDate.valid then sub.endDate.time
            else pJulAug.endDate.time) pJulAug.endDate.time) *
        sub.price)).sum :=
  summary_formula [rowSummary] pJulAug ⟨1, 2, 800⟩ rfl

/-!
## C7 — the service-level identifier guard
-/

/-- A string is empty exactly when its length is zero. -/
theorem string_length_zero_iff (s : String) : s.length = 0 ↔ s = "" := by
  constructor
  · intro h
    apply String.ext
    have : s.data.length = 0 := h
    simpa using List.length_eq_zero.mp this
  · intro h
    subst h
    rfl

/-- C7, counterexample.  The identifier `(id := -1)`, with no natural
key, is not rejected: `Service.Read` reaches storage — where the
negative id and the unset natural key are all wildcards, so it returns
the table's first row — and `Service.Delete` deletes that row and
reports success.  The claim demands BadRequest for both. -/
theorem negative_id_not_rejected_counterexample :
    Service.Read appA 0 ⟨-1, "", 0⟩ = .ok rowA ∧
    (Service.Delete appA ⟨-1, "", 0⟩).1 = none ∧
    (Service.Delete appA ⟨-1, "", 0⟩).2.db.rows = [] :=
  ⟨rfl, rfl, rfl⟩

/-- C7, amended.  `Service.Read` and `Service.Delete` reject an
identifier with BadRequest exactly when `id == 0` and the natural key is
incomplete (nil uuid or empty service name): a negative id passes the
guard — the check is `id == 0`, not `id <= 0` — and the call proceeds to
the cache and the store. -/
theorem service_guard_zero_id (st : Service.AppState) (now : Int)
    (ident : SubscriptionIdentifier) :
    (Service.Read st now ident = .error .badRequest ↔
      ident.id = 0 ∧ (ident.userUUID = 0 ∨ ident.serviceName = "")) ∧
    ((Service.Delete st ident).1 = some .badRequest ↔
      ident.id = 0 ∧ (ident.userUUID = 0 ∨ ident.serviceName = "")) := by
  by_cases hg : (ident.id == 0 &&
      (ident.userUUID == 0 || ident.serviceName.length == 0)) = true
  · have hG : ident.id = 0 ∧ (ident.userUUID = 0 ∨ ident.serviceName = "") := by
      simpa [string_length_zero_iff] using hg
    constructor
    · exact ⟨fun _ => hG, fun _ => by rw [Service.Read, if_pos hg]⟩
    · exact ⟨fun _ => hG, fun _ => by rw [Service.Delete, if_pos hg]⟩
  · have hG : ¬(ident.id = 0 ∧ (ident.userUUID = 0 ∨ ident.serviceName = "")) := by
      simpa [string_length_zero_iff] using hg
    constructor
    · refine ⟨fun hr => ?_, fun h => absurd h hG⟩
      exfalso
      rw [Service.Read, if_neg hg] at hr
      rcases hc : Cache.GetSubscription st.cache now ident with _ | s
      · rw [hc] at hr
        rw [Database.Read] at hr
        rcases hf : st.db.rows.find? (Database.matchIdent ident) with _ | s
        · rw [hf] at hr
          injection hr with he
          exact Err.noConfusion he
        · rw [hf] at hr
          cases hr
      · rw [hc] at hr
        cases hr
    · refine ⟨fun hr => ?_, fun h => absurd h hG⟩
      exfalso
      rw [Service.Delete, if_neg hg] at hr
      rw [Database.Delete, Database.Read] at hr
      rcases hf : st.db.rows.find? (Database.matchIdent ident) with _ | s
      · rw [hf] at hr
        simp at hr
      · rw [hf] at hr
        simp at hr

/-- C7, witness: the amended guard applied at `id = 0` with an empty
service name — rejected — exercising the `mpr` direction of both
equivalences. -/
theorem service_guard_zero_id_witness :
    Service.Read appA 0 ⟨0, "", 5⟩ = .error .badRequest ∧
    (Service.Delete appA ⟨0, "", 5⟩).1 = some .badRequest :=
  ⟨(service_guard_zero_id appA 0 ⟨0, "", 5⟩).1.mpr ⟨rfl, Or.inr rfl⟩,
   (service_guard_zero_id appA 0 ⟨0, "", 5⟩).2.mpr ⟨rfl, Or.inr rfl⟩⟩

/-!
## C8 — patch merge semantics
-/

/-- C8.  For a Patch whose id (positive, and uniquely owning its row)
resolves to the stored row `r`, if the call succeeds then: the merged
record — every absent patch field holding `r`'s current value, every
present field holding the patch's value — passed the same
`ValidateSubscription` a full Update runs; and the persisted table is
the old one with exactly that row's mutable fields replaced by the
merged values (so a field absent from the patch keeps the stored value,
and `created_at` is untouched). -/
theorem patch_preserves_absent_fields (st : Service.AppState) (now : Int)
    (patch : SubscriptionPatch) (r : Subscription)
    (hid : 0 < patch.id) (hr : r ∈ st.db.rows) (hrid : r.id = patch.id)
    (huniq : ∀ s ∈ st.db.rows, s.id = patch.id → s = r)
    (hok : (Service.Patch st now patch).1 = none) :
    Service.ValidateSubscription
      ⟨patch.id, patch.serviceName.getD r.serviceName,
        patch.price.getD r.price, patch.userUUID.getD r.userUUID,
        patch.startDate.getD r.startDate, patch.endDate.getD r.endDate,
        ⟨false, 0⟩, ⟨false, 0⟩⟩ = none ∧
    (Service.Patch st now patch).2.db.rows = st.db.rows.map (fun row =>
      if row.id == patch.id then
        { row with
          serviceName := patch.serviceName.getD r.serviceName
          price := patch.price.getD r.price
          userUUID := patch.userUUID.getD r.userUUID
          startDate := patch.startDate.getD r.startDate
          endDate := patch.endDate.getD r.endDate
          updatedAt := ⟨true, now⟩ }
      else row) := by
  have hfind : st.db.rows.find? (Database.matchIdent ⟨patch.id, "", 0⟩)
      = some r := by
    apply find_eq_some_of_unique
    · exact hr
    · simp [Database.matchIdent, hrid]
    · intro b hb hpb
      simp [Database.matchIdent, show ¬patch.id ≤ 0 by omega] at hpb
      exact huniq b hb hpb
  simp only [Service.Patch, Database.Read, hfind] at hok ⊢
  rcases hval : Service.ValidateSubscription
      ⟨patch.id, patch.serviceName.getD r.serviceName,
        patch.price.getD r.price, patch.userUUID.getD r.userUUID,
        patch.startDate.getD r.startDate, patch.endDate.getD r.endDate,
        ⟨false, 0⟩, ⟨false, 0⟩⟩ with _ | e
  · refine ⟨rfl, ?_⟩
    simp only [hval] at hok ⊢
    simp only [Database.Update, Database.Read] at hok ⊢
    rcases hprobe : st.db.rows.find? (Database.matchIdent
        ⟨0, patch.serviceName.getD r.serviceName,
          patch.userUUID.getD r.userUUID⟩) with _ | ex
    · simp only [hprobe] at hok ⊢
    · simp only [hprobe] at hok ⊢
      by_cases hex : patch.id = ex.id
      · simp only [hex, ne_eq, not_true_eq_false, if_neg, if_false] at hok ⊢
      · exfalso
        simp only [ne_eq, hex, not_false_eq_true, if_true, if_pos] at hok
        cases hok
  · exfalso
    simp only [hval] at hok
    cases hok

/-- A patch payload carrying only a new price (999) for id 1. -/
def patchPrice : SubscriptionPatch := ⟨1, none, some 999, none, none, none⟩

/-- C8, witness: the price-only patch of the spec's example against the
table `[rowA]`: price changes to 999, the service name, user uuid and
both dates keep `rowA`'s values, and the merged record passed
validation. -/
theorem patch_preserves_absent_fields_witness :
    Service.ValidateSubscription
      ⟨1, "Netflix", 999, 7, ⟨true, ⟨2025, 6⟩⟩, ⟨true, ⟨2025, 9⟩⟩,
        ⟨false, 0⟩, ⟨false, 0⟩⟩ = none ∧
    (Service.Patch appA 20 patchPrice).2.db.rows = [rowA].map (fun row =>
      if row.id == (1 : Int) then
        { row with
          serviceName := "Netflix"
          price := 999
          userUUID := 7
          startDate := (⟨true, ⟨2025, 6⟩⟩ : CustomDate)
          endDate := (⟨true, ⟨2025, 9⟩⟩ : CustomDate)
          updatedAt := (⟨true, 20⟩ : CustomTime) }
      else row) :=
  patch_preserves_absent_fields appA 20 patchPrice rowA
    (by decide) (by decide) (by decide) (by decide) (by decide)

/-!
## C9 — Summary's bounds are not enforced as required
-/

/-- Service state whose table holds exactly `rowSummary`. -/
def appSummary : Service.AppState := ⟨⟨[rowSummary], 2⟩, ⟨5, []⟩⟩

/-- C9.  A Summary request with an unset `start_date` and/or `end_date`
is not rejected as invalid input: the handler builds a NULL bound, the
service's only check (end before start) passes vacuously, and the filter
reaches the store — whose NULL month arithmetic then fails the scan,
surfacing as InternalServer rather than BadRequest. -/
theorem summary_unset_bound_reaches_store :
    Handler.Summary appSummary 0 "" none (some ⟨2025, 8⟩) =
      .error .internalServer ∧
    Handler.Summary appSummary 0 "" (some ⟨2025, 7⟩) none =
      .error .internalServer ∧
    Handler.Summary appSummary 0 "" none none = .error .internalServer ∧
    Handler.Summary appSummary 0 "" none (some ⟨2025, 8⟩) ≠
      .error .badRequest := by
  refine ⟨rfl, rfl, rfl, fun h => ?_⟩
  rw [show Handler.Summary appSummary 0 "" none (some ⟨2025, 8⟩) =
    Except.error Err.internalServer from rfl] at h
  injection h with h2
  exact Err.noConfusion h2

/-!
## C10 — what the post-Create cache entry holds
-/

/-- C10.  After a successful Create of a normal client payload (null
`created_at`/`updated_at` sentinels, as clients cannot set them), the
cache entry under the assigned id holds the client-submitted
subscription with the id substituted in — not the stored row: an
immediate cache-hit Read by that id returns the payload with null
timestamps, while the row inserted into the table carries the
store-assigned `created_at = updated_at = now`. -/
theorem create_cache_holds_client_payload (st : Service.AppState)
    (now : Int) (sub : Subscription)
    (hnext : 0 < st.db.nextId) (httl : 0 < st.cache.ttl)
    (hv : Service.ValidateSubscription sub = none)
    (hnk : ∀ r ∈ st.db.rows,
      ¬(r.userUUID = sub.userUUID ∧ r.serviceName = sub.serviceName))
    (hca : sub.createdAt.valid = false) (hua : sub.updatedAt.valid = false) :
    (Service.Create st now sub).1.2 = none ∧
    (Service.Create st now sub).1.1 = ⟨st.db.nextId⟩ ∧
    Service.Read (Service.Create st now sub).2 now ⟨st.db.nextId, "", 0⟩ =
      .ok { sub with id := st.db.nextId } ∧
    ({ sub with id := st.db.nextId } : Subscription).createdAt.valid = false ∧
    ({ sub with id := st.db.nextId } : Subscription).updatedAt.valid = false ∧
    (Service.Create st now sub).2.db.rows = st.db.rows ++
      [{ sub with id := st.db.nextId, createdAt := ⟨true, now⟩,
                  updatedAt := ⟨true, now⟩ }] := by
  obtain ⟨hu, hn, -, -⟩ := validate_ok_fields sub hv
  have hu' : (sub.userUUID == 0) = false := by simpa using hu
  have hn' : (sub.serviceName == "") = false := by simpa using hn
  have hnone : st.db.rows.find?
      (Database.matchIdent ⟨0, sub.serviceName, sub.userUUID⟩) = none := by
    rw [List.find?_eq_none]
    intro r hr
    simp [Database.matchIdent, hu', hn']
    exact fun h1 h2 => hnk r hr ⟨h1, h2⟩
  simp only [Service.Create, hv, Database.Create, Database.Read, hnone]
  refine ⟨trivial, trivial, ?_, hca, hua, trivial⟩
  rw [Service.Read, if_neg (by simp; omega)]
  simp only [Cache.GetSubscription, Cache.SetSubscription]
  rw [if_pos (by simpa using hnext)]
  rw [getKey_setKey_same]
  simp [show now < now + st.cache.ttl by omega]

/-- C10, witness: creating `subU` (null timestamps) in the empty app
state assigns id 1; the immediate Read by id 1 is served the cached
client payload with null timestamps, while the stored row carries the
assigned timestamps. -/
theorem create_cache_holds_client_payload_witness :
    (Service.Create emptyApp 0 subU).1.2 = none ∧
    (Service.Create emptyApp 0 subU).1.1 = ⟨1⟩ ∧
    Service.Read (Service.Create emptyApp 0 subU).2 0 ⟨1, "", 0⟩ =
      .ok { subU with id := 1 } ∧
    ({ subU with id := 1 } : Subscription).createdAt.valid = false ∧
    ({ subU with id := 1 } : Subscription).updatedAt.valid = false ∧
    (Service.Create emptyApp 0 subU).2.db.rows = emptyApp.db.rows ++
      [{ subU with id := 1, createdAt := ⟨true, 0⟩,
                   updatedAt := ⟨true, 0⟩ }] :=
  create_cache_holds_client_payload emptyApp 0 subU (by decide) (by decide)
    (by decide) (by decide) (by decide) (by decide)
